import Mathlib

/-!
Shallow embedding of `hw/arm/guest-socket.c` (QEMU TCP tunnelling guest
socket proxy).  The descriptor table `fds`, the error cell `qemu_errno`,
the allocator `find_free_socket`, the helper `set_socket_non_blocking`
and the seven `qc_handle_*` handlers are modelled as pure Lean functions
over an explicit state.  Host syscalls (`socket`, `accept`, `fcntl`,
`bind`, `connect`, `listen`, `send`, `recv`, `close`) are environment
choices supplied by a `HostEnv` record; guest memory copies through
`cpu_memory_rw_debug` and every access to the `fds` array are recorded
as events so that claims about "no host call", "no guest copy" and
"in-bounds indexing" can be stated.

The C `fds` array is modelled as a total function `Int → Int` so that
the out-of-bounds accesses the source performs (e.g. `fds[-1]`) are
representable and observable rather than being silently clamped.
-/

namespace GuestSocket

/-- Linux errno value used by the source for exhaustion and oversize
arguments (`qemu_errno = ENOMEM`). -/
def ENOMEM : Int := 12

/-- Linux errno value the handlers write on allocation failure
(`qemu_errno = ENOTSOCK`). -/
def ENOTSOCK : Int := 88

/-- Linux errno value for an invalid descriptor, used by the modelled
`VERIFY_FD` gate (the spec reports invalid handles "analogous to
`ENOTSOCK`/`EBADF`"). -/
def EBADF : Int := 9

/-- Size in bytes of `struct sockaddr_in` (the fixed address structure
`addr` the handlers marshal). -/
def sizeof_sockaddr_in : Nat := 16

/-- Size in bytes of `socklen_t`, written back by `qc_handle_accept`. -/
def sizeof_socklen_t : Nat := 4

/-- Observable events of a handler invocation: host syscalls, guest
memory copies via `cpu_memory_rw_debug`, and each read/write of the
`fds` descriptor array together with the index used. -/
inductive Event where
  | hostSocket (domain ty protocol : Int)
  | hostAccept (fd : Int)
  | hostFcntlGet (fd : Int)
  | hostFcntlSet (fd : Int)
  | hostClose (fd : Int)
  | hostBind (fd : Int) (addrlen : Nat)
  | hostConnect (fd : Int) (addrlen : Nat)
  | hostListen (fd : Int) (backlog : Int)
  | hostSend (fd : Int) (len : Nat) (flags : Int)
  | hostRecv (fd : Int) (len : Nat) (flags : Int)
  | copyFromGuest (addr : Nat) (len : Nat)
  | copyToGuest (addr : Nat) (len : Nat)
  | fdsRead (idx : Int)
  | fdsWrite (idx : Int) (v : Int)
  deriving DecidableEq, Repr

/-- Is the event an invocation of a host primitive (anything reaching
the host OS: networking calls, fcntl, close)? -/
def Event.isHostCall : Event → Bool
  | .hostSocket _ _ _ => true
  | .hostAccept _ => true
  | .hostFcntlGet _ => true
  | .hostFcntlSet _ => true
  | .hostClose _ => true
  | .hostBind _ _ => true
  | .hostConnect _ _ => true
  | .hostListen _ _ => true
  | .hostSend _ _ _ => true
  | .hostRecv _ _ _ => true
  | _ => false

/-- Is the event a copy between guest and host memory (either
direction of `cpu_memory_rw_debug`)? -/
def Event.isGuestCopy : Event → Bool
  | .copyFromGuest _ _ => true
  | .copyToGuest _ _ => true
  | _ => false

/-- Is the event a copy of bytes INTO guest memory (direction 1 of
`cpu_memory_rw_debug`)? -/
def Event.isCopyToGuest : Event → Bool
  | .copyToGuest _ _ => true
  | _ => false

/-- Is the event an access (read or write) of the `fds` array, and if
so at which index? -/
def Event.fdsIndex : Event → Option Int
  | .fdsRead i => some i
  | .fdsWrite i _ => some i
  | _ => none

/-- The mutable globals of the translation layer: the descriptor table
`fds` (a C array of `MAX_FD_COUNT` ints; modelled as a total function
so out-of-bounds indices are observable) and the error cell
`qemu_errno`. -/
structure QState where
  fds : Int → Int
  qemu_errno : Int

/-- Results and errno values of the host primitives for one handler
invocation; the environment (host OS) chooses them. A negative result
means the corresponding host call fails, with the paired errno value
being what the C global `errno` holds right after that call. -/
structure HostEnv where
  socketRes : Int
  socketErrno : Int
  acceptRes : Int
  acceptErrno : Int
  getflRes : Int
  getflErrno : Int
  setflRes : Int
  setflErrno : Int
  bindRes : Int
  bindErrno : Int
  connectRes : Int
  connectErrno : Int
  listenRes : Int
  listenErrno : Int
  sendRes : Int
  sendErrno : Int
  recvRes : Int
  recvErrno : Int

/-- Result of one handler invocation: the returned `int32_t`, the final
state of the globals, and the recorded events in order. -/
structure HResult where
  ret : Int
  st : QState
  events : List Event

/-- The scan loop of `find_free_socket`, written with the number of
remaining iterations as the (structural) recursion argument: from index
`i` with `n` slots left to inspect, return the first index holding the
FREE sentinel (or `-1`) and the trace of `fds` reads. -/
def find_free_loop (fds : Int → Int) : Nat → Nat → Int × List Event
  | 0, _ => (-1, [])
  | n + 1, i =>
    if fds i = -1 then (Int.ofNat i, [Event.fdsRead i])
    else
      let r := find_free_loop fds n (i + 1)
      (r.1, Event.fdsRead i :: r.2)

/-- The scan of `find_free_socket` starting at index `i`:
`for (; i < MAX_FD_COUNT; ++i) if (-1 == fds[i]) return i;` — i.e.
`MAX_FD_COUNT - i` iterations of the loop body. -/
def find_free_from (fds : Int → Int) (MAX_FD_COUNT : Nat) (i : Nat) :
    Int × List Event :=
  find_free_loop fds (MAX_FD_COUNT - i) i

/-- `find_free_socket`: linear scan for the first slot holding the
`-1` FREE sentinel; on failure sets `qemu_errno = ENOMEM` and returns
`-1`. -/
def find_free_socket (MAX_FD_COUNT : Nat) (st : QState) :
    Int × QState × List Event :=
  let r := find_free_from st.fds MAX_FD_COUNT 0
  if r.1 < 0 then (r.1, { st with qemu_errno := ENOMEM }, r.2)
  else (r.1, st, r.2)

/-- `set_socket_non_blocking(index)`: `fcntl(fds[index], F_GETFL)` then
`fcntl(fds[index], F_SETFL, flags | O_NONBLOCK)`; returns `index` on
success and `-1` on failure.  The second component is the value the C
global `errno` holds after the function returns on a failure path. -/
def set_socket_non_blocking (env : HostEnv) (st : QState) (index : Int) :
    Int × Int × List Event :=
  if env.getflRes < 0 then
    (-1, env.getflErrno, [Event.fdsRead index, Event.hostFcntlGet (st.fds index)])
  else if env.setflRes < 0 then
    (-1, env.setflErrno,
      [Event.fdsRead index, Event.hostFcntlGet (st.fds index),
       Event.fdsRead index, Event.hostFcntlSet (st.fds index)])
  else
    (index, 0,
      [Event.fdsRead index, Event.hostFcntlGet (st.fds index),
       Event.fdsRead index, Event.hostFcntlSet (st.fds index)])

/-- `qc_handle_socket`: allocate a slot, `socket()`, store the host
descriptor in the slot, force non-blocking; on non-blocking-setup
failure the source executes `close(fds[retval]); fds[retval] = -1;`
with `retval` already overwritten by the failing helper result `-1`. -/
def qc_handle_socket (MAX_FD_COUNT : Nat) (env : HostEnv) (st : QState)
    (domain ty protocol : Int) : HResult :=
  let a := find_free_socket MAX_FD_COUNT st
  let retval := a.1
  let st1 := a.snd.fst
  let evs1 := a.snd.snd
  if retval < 0 then
    { ret := retval, st := { st1 with qemu_errno := ENOTSOCK }, events := evs1 }
  else
    let st2 := { st1 with fds := Function.update st1.fds retval env.socketRes }
    let evs2 := evs1 ++ [Event.hostSocket domain ty protocol,
                         Event.fdsWrite retval env.socketRes]
    if env.socketRes < 0 then
      { ret := -1, st := { st2 with qemu_errno := env.socketErrno }, events := evs2 }
    else
      let nb := set_socket_non_blocking env st2 retval
      if nb.1 < 0 then
        let st3 : QState :=
          { fds := Function.update st2.fds nb.1 (-1), qemu_errno := nb.snd.fst }
        let evs3 := evs2 ++ nb.snd.snd ++
          [Event.fdsRead nb.1, Event.hostClose (st2.fds nb.1),
           Event.fdsWrite nb.1 (-1)]
        { ret := nb.1, st := st3, events := evs3 }
      else
        { ret := nb.1, st := st2, events := evs2 ++ nb.snd.snd }

/-- Modelled from the spec: the `VERIFY_FD` gate comes from the header
`hw/arm/guest-services/fds.h`, which is not part of the available
sources.  Per the spec's `get_host_descriptor` contract it "validates
`0 <= handle < MAX_FD_COUNT` and that the slot is not `FREE`", and on
failure reports an invalid-descriptor condition "analogous to
`ENOTSOCK`/`EBADF`" and "must short-circuit the Handler without
touching the host".  `verify_fd_ok` is the validity test. -/
def verify_fd_ok (MAX_FD_COUNT : Nat) (st : QState) (sckt : Int) : Bool :=
  decide (0 ≤ sckt) && decide (sckt < MAX_FD_COUNT) && !(decide (st.fds sckt = -1))

/-- Modelled from the spec: result of a handler short-circuited by the
`VERIFY_FD` gate — the invalid-descriptor errno is written to the error
cell, `-1` is returned, and nothing else happens (no host call, no
guest-memory copy, no descriptor-table mutation). -/
def verify_fd_fail (st : QState) : HResult :=
  { ret := -1, st := { st with qemu_errno := EBADF }, events := [] }

/-- `qc_handle_accept`: verify the listening handle, allocate a slot for
the peer, `accept()`, force non-blocking, and on success write the peer
address and its length back to guest memory.  On non-blocking-setup
failure the source executes `fds[retval] = -1;` with `retval` already
overwritten by the failing helper result `-1` (and, unlike
`qc_handle_socket`, performs no `close`). -/
def qc_handle_accept (MAX_FD_COUNT : Nat) (env : HostEnv) (st : QState)
    (sckt : Int) (g_addr g_addrlen : Nat) : HResult :=
  if !(verify_fd_ok MAX_FD_COUNT st sckt) then verify_fd_fail st
  else
    let a := find_free_socket MAX_FD_COUNT st
    let retval := a.1
    let st1 := a.snd.fst
    let evs1 := a.snd.snd
    if retval < 0 then
      { ret := retval, st := { st1 with qemu_errno := ENOTSOCK }, events := evs1 }
    else
      let st2 := { st1 with fds := Function.update st1.fds retval env.acceptRes }
      let evs2 := evs1 ++ [Event.fdsRead sckt, Event.hostAccept (st1.fds sckt),
                           Event.fdsWrite retval env.acceptRes]
      if env.acceptRes < 0 then
        { ret := -1, st := { st2 with qemu_errno := env.acceptErrno }, events := evs2 }
      else
        let nb := set_socket_non_blocking env st2 retval
        if nb.1 < 0 then
          let st3 : QState :=
            { fds := Function.update st2.fds nb.1 (-1), qemu_errno := nb.snd.fst }
          { ret := nb.1, st := st3,
            events := evs2 ++ nb.snd.snd ++ [Event.fdsWrite nb.1 (-1)] }
        else
          { ret := nb.1, st := st2,
            events := evs2 ++ nb.snd.snd ++
              [Event.copyToGuest g_addr sizeof_sockaddr_in,
               Event.copyToGuest g_addrlen sizeof_socklen_t] }

/-- `qc_handle_bind`: verify the handle; reject
`addrlen > sizeof(struct sockaddr_in)` with `qemu_errno = ENOMEM`
(note: `retval` stays `0` on that path); otherwise copy the address in,
`bind()`, and copy the address back on success. -/
def qc_handle_bind (MAX_FD_COUNT : Nat) (env : HostEnv) (st : QState)
    (sckt : Int) (g_addr : Nat) (addrlen : Nat) : HResult :=
  if !(verify_fd_ok MAX_FD_COUNT st sckt) then verify_fd_fail st
  else if addrlen > sizeof_sockaddr_in then
    { ret := 0, st := { st with qemu_errno := ENOMEM }, events := [] }
  else
    let evs := [Event.copyFromGuest g_addr sizeof_sockaddr_in,
                Event.fdsRead sckt, Event.hostBind (st.fds sckt) addrlen]
    if env.bindRes < 0 then
      { ret := env.bindRes, st := { st with qemu_errno := env.bindErrno },
        events := evs }
    else
      { ret := env.bindRes, st := st,
        events := evs ++ [Event.copyToGuest g_addr sizeof_sockaddr_in] }

/-- `qc_handle_connect`: same shape as `qc_handle_bind`, invoking
`connect()` (the source differs only in indentation). -/
def qc_handle_connect (MAX_FD_COUNT : Nat) (env : HostEnv) (st : QState)
    (sckt : Int) (g_addr : Nat) (addrlen : Nat) : HResult :=
  if !(verify_fd_ok MAX_FD_COUNT st sckt) then verify_fd_fail st
  else if addrlen > sizeof_sockaddr_in then
    { ret := 0, st := { st with qemu_errno := ENOMEM }, events := [] }
  else
    let evs := [Event.copyFromGuest g_addr sizeof_sockaddr_in,
                Event.fdsRead sckt, Event.hostConnect (st.fds sckt) addrlen]
    if env.connectRes < 0 then
      { ret := env.connectRes, st := { st with qemu_errno := env.connectErrno },
        events := evs }
    else
      { ret := env.connectRes, st := st,
        events := evs ++ [Event.copyToGuest g_addr sizeof_sockaddr_in] }

/-- `qc_handle_listen`: verify the handle and invoke `listen()`. -/
def qc_handle_listen (MAX_FD_COUNT : Nat) (env : HostEnv) (st : QState)
    (sckt : Int) (backlog : Int) : HResult :=
  if !(verify_fd_ok MAX_FD_COUNT st sckt) then verify_fd_fail st
  else
    let evs := [Event.fdsRead sckt, Event.hostListen (st.fds sckt) backlog]
    if env.listenRes < 0 then
      { ret := env.listenRes, st := { st with qemu_errno := env.listenErrno },
        events := evs }
    else
      { ret := env.listenRes, st := st, events := evs }

/-- `qc_handle_recv`: verify the handle; reject `length > MAX_BUF_SIZE`
with `qemu_errno = ENOMEM` and return the initial `retval = -1`;
otherwise `recv()`, treating `retval <= 0` as failure (errno recorded,
nothing copied); on `retval > 0` copy exactly `retval` bytes to the
guest buffer. -/
def qc_handle_recv (MAX_FD_COUNT MAX_BUF_SIZE : Nat) (env : HostEnv)
    (st : QState) (sckt : Int) (g_buffer : Nat) (length : Nat)
    (flags : Int) : HResult :=
  if !(verify_fd_ok MAX_FD_COUNT st sckt) then verify_fd_fail st
  else if length > MAX_BUF_SIZE then
    { ret := -1, st := { st with qemu_errno := ENOMEM }, events := [] }
  else
    let evs := [Event.fdsRead sckt, Event.hostRecv (st.fds sckt) length flags]
    if env.recvRes ≤ 0 then
      { ret := env.recvRes, st := { st with qemu_errno := env.recvErrno },
        events := evs }
    else
      { ret := env.recvRes, st := st,
        events := evs ++ [Event.copyToGuest g_buffer env.recvRes.toNat] }

/-- `qc_handle_send`: verify the handle; reject `length > MAX_BUF_SIZE`
with `qemu_errno = ENOMEM` and return the initial `retval = -1`;
otherwise copy `length` bytes in from the guest, `send()`, and record
errno when the host call fails. -/
def qc_handle_send (MAX_FD_COUNT MAX_BUF_SIZE : Nat) (env : HostEnv)
    (st : QState) (sckt : Int) (g_buffer : Nat) (length : Nat)
    (flags : Int) : HResult :=
  if !(verify_fd_ok MAX_FD_COUNT st sckt) then verify_fd_fail st
  else if length > MAX_BUF_SIZE then
    { ret := -1, st := { st with qemu_errno := ENOMEM }, events := [] }
  else
    let evs := [Event.copyFromGuest g_buffer length,
                Event.fdsRead sckt, Event.hostSend (st.fds sckt) length flags]
    if env.sendRes < 0 then
      { ret := env.sendRes, st := { st with qemu_errno := env.sendErrno },
        events := evs }
    else
      { ret := env.sendRes, st := st, events := evs }

/-- Modelled from the spec: `release(handle)` belongs to the wider
guest-services surface (`hw/arm/guest-services/fds.h`), not to the
available sources; per the spec it "sets the slot back to `FREE`". -/
def release (st : QState) (handle : Int) : QState :=
  { st with fds := Function.update st.fds handle (-1) }

/-- Iterated invocation of `qc_handle_socket`: the list of returned
handles and the final state after `n` consecutive create calls. -/
def createSeq (MAX_FD_COUNT : Nat) (env : HostEnv) (domain ty protocol : Int) :
    Nat → QState → List Int × QState
  | 0, st => ([], st)
  | n + 1, st =>
    let r := qc_handle_socket MAX_FD_COUNT env st domain ty protocol
    let rest := createSeq MAX_FD_COUNT env domain ty protocol n r.st
    (r.ret :: rest.1, rest.snd)

/-- Does the event access the `fds` array at an index outside
`[0, MAX_FD_COUNT)`? -/
def Event.oobAccess (MAX_FD_COUNT : Nat) (e : Event) : Bool :=
  match e.fdsIndex with
  | some i => decide (i < 0) || decide ((MAX_FD_COUNT : Int) ≤ i)
  | none => false

/-- The table reached after `k` successful creates from an empty table
when the host hands out descriptor `hostfd` each time: slots
`0, …, k-1` hold `hostfd`, every other index holds FREE. -/
def stepFds (hostfd : Int) (k : Nat) : Int → Int :=
  fun i => if 0 ≤ i ∧ i < (k : Int) then hostfd else -1

/-- An empty descriptor table: every slot holds the FREE sentinel. -/
def stEmpty : QState := { fds := fun _ => -1, qemu_errno := 0 }

/-- A table whose slot 0 holds host descriptor 7 and whose other slots
are FREE. -/
def stOne : QState := { fds := fun i => if i = 0 then 7 else -1, qemu_errno := 0 }

/-- A table with no FREE slot (every slot holds host descriptor 3). -/
def stFull : QState := { fds := fun _ => 3, qemu_errno := 0 }

/-- A host environment in which every primitive succeeds:
`socket() = 5`, `accept() = 6`, both `fcntl` calls succeed,
`send() = 3`, `recv() = 2`. -/
def envOK : HostEnv := ⟨5, 0, 6, 0, 0, 0, 0, 0, 0, 0, 0, 0, 0, 0, 3, 0, 2, 0⟩

/-- A host environment in which `fcntl(F_GETFL)` fails with errno 33,
everything else succeeding. -/
def envGetflFail : HostEnv := { envOK with getflRes := -1, getflErrno := 33 }

/-- A host environment in which `recv()` returns 0 (peer closed the
connection) and `errno` happens to hold 111 afterwards. -/
def envRecvZero : HostEnv := { envOK with recvRes := 0, recvErrno := 111 }

/-- If none of the `n` slots starting at `i` is FREE, the scan loop
returns `-1`. -/
theorem find_free_loop_ret_none (fds : Int → Int) :
    ∀ n i : Nat, (∀ m : Nat, i ≤ m → m < i + n → fds m ≠ -1) →
    (find_free_loop fds n i).1 = -1 := by
  intro n
  induction n with
  | zero => intro i _; rfl
  | succ n ih =>
    intro i h
    unfold find_free_loop
    rw [if_neg (h i le_rfl (by omega))]
    exact ih (i + 1) (fun m hm1 hm2 => h m (by omega) (by omega))

/-- If slot `k` is FREE and every slot from `i` up to `k` is occupied,
the scan loop starting at `i` with enough iterations left returns `k`. -/
theorem find_free_loop_ret_found (fds : Int → Int) :
    ∀ n i k : Nat, i ≤ k → k < i + n → fds k = -1 →
    (∀ m : Nat, i ≤ m → m < k → fds m ≠ -1) →
    (find_free_loop fds n i).1 = (k : Int) := by
  intro n
  induction n with
  | zero => intro i k h1 h2 _ _; omega
  | succ n ih =>
    intro i k h1 h2 hk hmin
    unfold find_free_loop
    by_cases hi : fds i = -1
    · have : i = k := by
        by_contra hne
        exact hmin i le_rfl (by omega) hi
      rw [if_pos hi, this]
      rfl
    · rw [if_neg hi]
      have hik : i ≠ k := fun he => hi (he ▸ hk)
      exact ih (i + 1) k (by omega) (by omega) hk
        (fun m hm1 hm2 => hmin m (by omega) hm2)

/-- If the whole table is occupied, `find_free_socket` returns `-1`,
sets `qemu_errno = ENOMEM`, and leaves the table itself unchanged. -/
theorem find_free_socket_full (MAX_FD_COUNT : Nat) (st : QState)
    (hfull : ∀ i : Nat, i < MAX_FD_COUNT → st.fds i ≠ -1) :
    find_free_socket MAX_FD_COUNT st =
      (-1, { st with qemu_errno := ENOMEM },
       (find_free_from st.fds MAX_FD_COUNT 0).2) := by
  have hnone : (find_free_loop st.fds MAX_FD_COUNT 0).1 = -1 :=
    find_free_loop_ret_none st.fds MAX_FD_COUNT 0
      (fun m _ hm2 => hfull m (by omega))
  unfold find_free_socket find_free_from
  simp [hnone]

/-- If `i` is the smallest FREE index, `find_free_socket` returns `i`
and does not modify the state at all. -/
theorem find_free_socket_least (MAX_FD_COUNT : Nat) (st : QState) (i : Nat)
    (hi : i < MAX_FD_COUNT) (hfree : st.fds i = -1)
    (hmin : ∀ j : Nat, j < i → st.fds j ≠ -1) :
    find_free_socket MAX_FD_COUNT st =
      ((i : Int), st, (find_free_from st.fds MAX_FD_COUNT 0).2) := by
  have hfound : (find_free_loop st.fds MAX_FD_COUNT 0).1 = (i : Int) :=
    find_free_loop_ret_found st.fds MAX_FD_COUNT 0 i (Nat.zero_le i)
      (by omega) hfree (fun m _ hm2 => hmin m hm2)
  have hnn : ¬((i : Int) < 0) := by omega
  unfold find_free_socket find_free_from
  simp [hfound, hnn]

/-- Claim C5: every handler that takes a guest handle (`accept`,
`bind`, `connect`, `listen`, `send`, `recv`) short-circuits when the
handle is outside `[0, MAX_FD_COUNT)` or its slot holds the FREE
sentinel: it returns `-1` with the invalid-descriptor errno in the
error cell and records no event — no host primitive and no guest
copy.  The `VERIFY_FD` gate is modelled from the spec because its
header is not among the available sources. -/
theorem invalid_handle_short_circuits (MAX_FD_COUNT MAX_BUF_SIZE : Nat)
    (env : HostEnv) (st : QState) (sckt : Int)
    (g_addr g_addrlen g_buffer addrlen len : Nat) (backlog flags : Int)
    (h : sckt < 0 ∨ (MAX_FD_COUNT : Int) ≤ sckt ∨ st.fds sckt = -1) :
    qc_handle_accept MAX_FD_COUNT env st sckt g_addr g_addrlen = verify_fd_fail st ∧
    qc_handle_bind MAX_FD_COUNT env st sckt g_addr addrlen = verify_fd_fail st ∧
    qc_handle_connect MAX_FD_COUNT env st sckt g_addr addrlen = verify_fd_fail st ∧
    qc_handle_listen MAX_FD_COUNT env st sckt backlog = verify_fd_fail st ∧
    qc_handle_send MAX_FD_COUNT MAX_BUF_SIZE env st sckt g_buffer len flags =
      verify_fd_fail st ∧
    qc_handle_recv MAX_FD_COUNT MAX_BUF_SIZE env st sckt g_buffer len flags =
      verify_fd_fail st ∧
    (verify_fd_fail st).ret < 0 ∧
    (verify_fd_fail st).st.qemu_errno = EBADF ∧
    (verify_fd_fail st).st.fds = st.fds ∧
    (verify_fd_fail st).events = [] := by
  have hv : verify_fd_ok MAX_FD_COUNT st sckt = false := by
    rcases h with h | h | h <;> simp [verify_fd_ok, h]
  refine ⟨?_, ?_, ?_, ?_, ?_, ?_, by simp [verify_fd_fail], by simp [verify_fd_fail],
    rfl, rfl⟩ <;>
    simp [qc_handle_accept, qc_handle_bind, qc_handle_connect, qc_handle_listen,
      qc_handle_send, qc_handle_recv, hv]

/-- Witness for C5 at a concrete input: handle `-2` on a table of
capacity 4 is rejected by `qc_handle_listen` without any event. -/
theorem invalid_handle_short_circuits_witness :
    ((-2 : Int) < 0 ∨ ((4 : Nat) : Int) ≤ -2 ∨ stOne.fds (-2) = -1) ∧
    qc_handle_listen 4 envOK stOne (-2) 1 = verify_fd_fail stOne := by
  have h : (-2 : Int) < 0 ∨ ((4 : Nat) : Int) ≤ -2 ∨ stOne.fds (-2) = -1 :=
    Or.inl (by decide)
  exact ⟨h,
    (invalid_handle_short_circuits 4 16 envOK stOne (-2) 0 0 0 0 0 1 0 h).2.2.2.1⟩

/-- Claim C7: `qc_handle_send` and `qc_handle_recv` on a valid handle
with `length > MAX_BUF_SIZE` return `-1` with `qemu_errno = ENOMEM`
(the oversize-argument code of the source) and record no event at all —
no host call and no copy in either direction — leaving the table
untouched. -/
theorem send_recv_oversize_rejected (MAX_FD_COUNT MAX_BUF_SIZE : Nat)
    (env : HostEnv) (st : QState) (sckt : Int) (g_buffer len : Nat) (flags : Int)
    (hok : verify_fd_ok MAX_FD_COUNT st sckt = true)
    (hlen : len > MAX_BUF_SIZE) :
    (qc_handle_recv MAX_FD_COUNT MAX_BUF_SIZE env st sckt g_buffer len flags =
      { ret := -1, st := { st with qemu_errno := ENOMEM }, events := [] }) ∧
    (qc_handle_send MAX_FD_COUNT MAX_BUF_SIZE env st sckt g_buffer len flags =
      { ret := -1, st := { st with qemu_errno := ENOMEM }, events := [] }) := by
  constructor <;> simp [qc_handle_recv, qc_handle_send, hok, hlen]

/-- Witness for C7 at a concrete input: `length = 17 > MAX_BUF_SIZE =
16` on valid handle 0. -/
theorem send_recv_oversize_rejected_witness :
    verify_fd_ok 4 stOne 0 = true ∧ 17 > 16 ∧
    qc_handle_recv 4 16 envOK stOne 0 100 17 0 =
      { ret := -1, st := { stOne with qemu_errno := ENOMEM }, events := [] } := by
  exact ⟨by decide, by decide,
    (send_recv_oversize_rejected 4 16 envOK stOne 0 100 17 0 (by decide)
      (by decide)).1⟩

/-- With a full table, `qc_handle_socket` returns `-1` and leaves the
table itself unchanged; the error cell ends up holding `ENOTSOCK`
because the handler overwrites the allocator's `ENOMEM`. -/
theorem socket_full_behavior (MAX_FD_COUNT : Nat) (env : HostEnv) (st : QState)
    (domain ty protocol : Int)
    (hfull : ∀ i : Nat, i < MAX_FD_COUNT → st.fds i ≠ -1) :
    qc_handle_socket MAX_FD_COUNT env st domain ty protocol =
      { ret := -1, st := { st with qemu_errno := ENOTSOCK },
        events := (find_free_from st.fds MAX_FD_COUNT 0).2 } := by
  simp [qc_handle_socket, find_free_socket_full MAX_FD_COUNT st hfull]

/-- Claim C3 (amended): when `qc_handle_socket` is invoked with a full
descriptor table it returns a negative result and the error cell, as
observed by the guest after the call, holds `ENOTSOCK` — the
invalid-socket code — not an `ENOMEM`-class exhaustion code: the
handler overwrites the `ENOMEM` that `find_free_socket` wrote.  The
table itself is unchanged. -/
theorem socket_exhaustion_errno_general (MAX_FD_COUNT : Nat) (env : HostEnv)
    (st : QState) (domain ty protocol : Int)
    (hfull : ∀ i : Nat, i < MAX_FD_COUNT → st.fds i ≠ -1) :
    (qc_handle_socket MAX_FD_COUNT env st domain ty protocol).ret < 0 ∧
    (qc_handle_socket MAX_FD_COUNT env st domain ty protocol).st.qemu_errno =
      ENOTSOCK ∧
    (qc_handle_socket MAX_FD_COUNT env st domain ty protocol).st.qemu_errno ≠
      ENOMEM ∧
    (qc_handle_socket MAX_FD_COUNT env st domain ty protocol).st.fds = st.fds := by
  rw [socket_full_behavior MAX_FD_COUNT env st domain ty protocol hfull]
  exact ⟨by norm_num, rfl, (by decide : ENOTSOCK ≠ ENOMEM), rfl⟩

/-- Witness for C3 at a concrete input: capacity 1, slot 0 occupied. -/
theorem socket_exhaustion_errno_general_witness :
    (∀ i : Nat, i < 1 → stFull.fds i ≠ -1) ∧
    (qc_handle_socket 1 envOK stFull 2 1 0).ret < 0 ∧
    (qc_handle_socket 1 envOK stFull 2 1 0).st.qemu_errno = ENOTSOCK := by
  have hfull : ∀ i : Nat, i < 1 → stFull.fds i ≠ -1 := by decide
  have h := socket_exhaustion_errno_general 1 envOK stFull 2 1 0 hfull
  exact ⟨hfull, h.1, h.2.1⟩

/-- Claim C4 (amended): whenever the host `recv` returns a value `<= 0`
on a valid, in-bounds invocation of `qc_handle_recv`, the handler takes
the failure branch: it writes the host errno into the error cell,
copies nothing to guest memory, leaves the table unchanged — and
returns the host result itself, which is negative when the host
returned a negative value but `0` when the host returned `0`. -/
theorem recv_nonpositive_host_result (MAX_FD_COUNT MAX_BUF_SIZE : Nat)
    (env : HostEnv) (st : QState) (sckt : Int) (g_buffer len : Nat) (flags : Int)
    (hok : verify_fd_ok MAX_FD_COUNT st sckt = true)
    (hlen : ¬len > MAX_BUF_SIZE) (hres : env.recvRes ≤ 0) :
    qc_handle_recv MAX_FD_COUNT MAX_BUF_SIZE env st sckt g_buffer len flags =
      { ret := env.recvRes, st := { st with qemu_errno := env.recvErrno },
        events := [Event.fdsRead sckt, Event.hostRecv (st.fds sckt) len flags] } ∧
    (∀ e ∈ [Event.fdsRead sckt, Event.hostRecv (st.fds sckt) len flags],
      e.isCopyToGuest = false) := by
  constructor
  · simp [qc_handle_recv, hok, hlen, hres]
  · intro e he
    simp only [List.mem_cons, List.not_mem_nil, or_false] at he
    rcases he with rfl | rfl <;> rfl

/-- Witness for C4 at a concrete input: host recv returns 0 on valid
handle 0 with an in-bounds length. -/
theorem recv_nonpositive_host_result_witness :
    verify_fd_ok 4 stOne 0 = true ∧ ¬(8 : Nat) > 16 ∧ envRecvZero.recvRes ≤ 0 ∧
    qc_handle_recv 4 16 envRecvZero stOne 0 100 8 0 =
      { ret := envRecvZero.recvRes,
        st := { stOne with qemu_errno := envRecvZero.recvErrno },
        events := [Event.fdsRead 0, Event.hostRecv (stOne.fds 0) 8 0] } := by
  exact ⟨by decide, by decide, by decide,
    (recv_nonpositive_host_result 4 16 envRecvZero stOne 0 100 8 0 (by decide)
      (by decide) (by decide)).1⟩

/-- Claim C8: on a successful recv (host result `n > 0`, which the host
guarantees is at most the requested length), `qc_handle_recv` performs
exactly one copy to guest memory, of exactly `n` bytes, at the guest
buffer address, and returns `n`; `n` never exceeds the requested length
nor `MAX_BUF_SIZE`.  On failing invocations (host result `<= 0`)
nothing is copied to guest memory. -/
theorem recv_copies_exactly_transferred (MAX_FD_COUNT MAX_BUF_SIZE : Nat)
    (env : HostEnv) (st : QState) (sckt : Int) (g_buffer len : Nat) (flags : Int)
    (hok : verify_fd_ok MAX_FD_COUNT st sckt = true)
    (hlen : len ≤ MAX_BUF_SIZE) (hub : env.recvRes ≤ (len : Int)) :
    (0 < env.recvRes →
      (qc_handle_recv MAX_FD_COUNT MAX_BUF_SIZE env st sckt g_buffer len
          flags).ret = env.recvRes ∧
      ((qc_handle_recv MAX_FD_COUNT MAX_BUF_SIZE env st sckt g_buffer len
          flags).events.filter (fun e => e.isCopyToGuest)) =
        [Event.copyToGuest g_buffer env.recvRes.toNat] ∧
      env.recvRes.toNat ≤ len ∧ env.recvRes.toNat ≤ MAX_BUF_SIZE) ∧
    (env.recvRes ≤ 0 →
      ((qc_handle_recv MAX_FD_COUNT MAX_BUF_SIZE env st sckt g_buffer len
          flags).events.filter (fun e => e.isCopyToGuest)) = []) := by
  have hlen' : ¬len > MAX_BUF_SIZE := by omega
  constructor
  · intro hpos
    have hnp : ¬env.recvRes ≤ 0 := by omega
    refine ⟨?_, ?_, by omega, by omega⟩ <;>
      simp [qc_handle_recv, hok, hlen', hnp, Event.isCopyToGuest, List.filter]
  · intro hres
    simp [qc_handle_recv, hok, hlen', hres, Event.isCopyToGuest, List.filter]

/-- Witness for C8 at a concrete input: the host reports 2 bytes
received out of 8 requested; exactly 2 bytes are copied to guest
address 100. -/
theorem recv_copies_exactly_transferred_witness :
    verify_fd_ok 4 stOne 0 = true ∧ (8 : Nat) ≤ 16 ∧
    envOK.recvRes ≤ ((8 : Nat) : Int) ∧ 0 < envOK.recvRes ∧
    ((qc_handle_recv 4 16 envOK stOne 0 100 8 0).events.filter
      (fun e => e.isCopyToGuest)) =
      [Event.copyToGuest 100 envOK.recvRes.toNat] := by
  exact ⟨by decide, by decide, by decide, by decide,
    ((recv_copies_exactly_transferred 4 16 envOK stOne 0 100 8 0 (by decide)
      (by decide) (by decide)).1 (by decide)).2.1⟩

/-- Updating slot `k` of the `k`-slots-filled table with the host
descriptor yields the `(k+1)`-slots-filled table. -/
theorem stepFds_update (hostfd : Int) (k : Nat) :
    Function.update (stepFds hostfd k) ((k : Nat) : Int) hostfd =
      stepFds hostfd (k + 1) := by
  funext i
  rcases eq_or_ne i ((k : Nat) : Int) with rfl | hne
  · rw [Function.update_same]
    unfold stepFds
    rw [if_pos (by omega)]
  · rw [Function.update_noteq hne]
    unfold stepFds
    split_ifs <;> first | rfl | omega

/-- The 0-slots-filled table is the empty table. -/
theorem stepFds_zero (hostfd : Int) : stepFds hostfd 0 = stEmpty.fds := by
  funext i
  unfold stepFds stEmpty
  split_ifs with h
  · omega
  · rfl

/-- A fully successful `qc_handle_socket` on a table whose smallest
FREE index is `i` returns `i` and claims exactly slot `i` for the new
host descriptor, leaving the error cell alone. -/
theorem socket_success_step (MAX_FD_COUNT : Nat) (env : HostEnv) (st : QState)
    (domain ty protocol : Int) (i : Nat)
    (hi : i < MAX_FD_COUNT) (hfree : st.fds i = -1)
    (hmin : ∀ j : Nat, j < i → st.fds j ≠ -1)
    (hs : 0 ≤ env.socketRes) (hg : 0 ≤ env.getflRes) (hf : 0 ≤ env.setflRes) :
    (qc_handle_socket MAX_FD_COUNT env st domain ty protocol).ret = (i : Int) ∧
    (qc_handle_socket MAX_FD_COUNT env st domain ty protocol).st =
      { fds := Function.update st.fds (i : Int) env.socketRes,
        qemu_errno := st.qemu_errno } := by
  have hff := find_free_socket_least MAX_FD_COUNT st i hi hfree hmin
  have h1 : ¬((i : Int) < 0) := by omega
  have h2 : ¬(env.socketRes < 0) := by omega
  have h3 : ¬(env.getflRes < 0) := by omega
  have h4 : ¬(env.setflRes < 0) := by omega
  constructor <;>
    simp [qc_handle_socket, hff, set_socket_non_blocking, h1, h2, h3, h4]

/-- Running `n` consecutive creates on the `k`-slots-filled table (with
room for all of them and a host that always succeeds) returns the
handles `k, k+1, …, k+n-1` in order and fills the next `n` slots. -/
theorem createSeq_fills (MAX_FD_COUNT : Nat) (env : HostEnv)
    (domain ty protocol : Int)
    (hs : 0 ≤ env.socketRes) (hg : 0 ≤ env.getflRes) (hf : 0 ≤ env.setflRes) :
    ∀ n k : Nat, ∀ e : Int, k + n ≤ MAX_FD_COUNT →
      createSeq MAX_FD_COUNT env domain ty protocol n
          { fds := stepFds env.socketRes k, qemu_errno := e } =
        ((List.range' k n).map (fun m => (m : Int)),
         { fds := stepFds env.socketRes (k + n), qemu_errno := e }) := by
  intro n
  induction n with
  | zero => intro k e h; simp [createSeq]
  | succ n ih =>
    intro k e h
    have hfree : ({ fds := stepFds env.socketRes k, qemu_errno := e } :
        QState).fds k = -1 := by
      show stepFds env.socketRes k k = -1
      unfold stepFds
      rw [if_neg (by omega)]
    have hmin : ∀ j : Nat, j < k →
        ({ fds := stepFds env.socketRes k, qemu_errno := e } : QState).fds j ≠
          -1 := by
      intro j hj
      show stepFds env.socketRes k j ≠ -1
      unfold stepFds
      rw [if_pos (by omega)]
      omega
    have hstep := socket_success_step MAX_FD_COUNT env
      { fds := stepFds env.socketRes k, qemu_errno := e } domain ty protocol k
      (by omega) hfree hmin hs hg hf
    have hkn : k + 1 + n = k + (n + 1) := by omega
    simp only [createSeq]
    rw [hstep.1, hstep.2]
    show ((k : Int) :: (createSeq MAX_FD_COUNT env domain ty protocol n
        { fds := Function.update (stepFds env.socketRes k) (k : Int)
            env.socketRes, qemu_errno := e }).1, _) = _
    rw [stepFds_update, ih (k + 1) e (by omega), hkn, List.range'_succ]
    simp

/-- Claim C9: `find_free_socket` returns the smallest FREE index
without mutating any state, and fails with the table unchanged when no
slot is FREE; a successful create claims exactly the returned slot;
from an empty table, `MAX_FD_COUNT` consecutive creates (host always
succeeding) return the handles `0, 1, …, MAX_FD_COUNT-1` lowest-first,
the next create fails with the table unchanged, and after releasing
any handle from the full table the next create reuses precisely that
slot.  `release` is modelled from the spec, the rest from the source. -/
theorem allocator_lowest_first_and_reuse (MAX_FD_COUNT : Nat) (env : HostEnv)
    (domain ty protocol : Int)
    (hs : 0 ≤ env.socketRes) (hg : 0 ≤ env.getflRes) (hf : 0 ≤ env.setflRes) :
    (∀ st : QState, ∀ i : Nat, i < MAX_FD_COUNT → st.fds i = -1 →
      (∀ j : Nat, j < i → st.fds j ≠ -1) →
      (find_free_socket MAX_FD_COUNT st).1 = (i : Int) ∧
      (find_free_socket MAX_FD_COUNT st).snd.fst = st) ∧
    (∀ st : QState, (∀ i : Nat, i < MAX_FD_COUNT → st.fds i ≠ -1) →
      (find_free_socket MAX_FD_COUNT st).1 = -1 ∧
      (find_free_socket MAX_FD_COUNT st).snd.fst.fds = st.fds) ∧
    (∀ st : QState, ∀ i : Nat, i < MAX_FD_COUNT → st.fds i = -1 →
      (∀ j : Nat, j < i → st.fds j ≠ -1) →
      (qc_handle_socket MAX_FD_COUNT env st domain ty protocol).ret = (i : Int) ∧
      (qc_handle_socket MAX_FD_COUNT env st domain ty protocol).st.fds i =
        env.socketRes ∧
      (∀ j : Int, j ≠ (i : Int) →
        (qc_handle_socket MAX_FD_COUNT env st domain ty protocol).st.fds j =
          st.fds j)) ∧
    ((createSeq MAX_FD_COUNT env domain ty protocol MAX_FD_COUNT stEmpty).1 =
      (List.range MAX_FD_COUNT).map (fun m => (m : Int)) ∧
     (qc_handle_socket MAX_FD_COUNT env
        (createSeq MAX_FD_COUNT env domain ty protocol MAX_FD_COUNT
          stEmpty).snd domain ty protocol).ret < 0 ∧
     (qc_handle_socket MAX_FD_COUNT env
        (createSeq MAX_FD_COUNT env domain ty protocol MAX_FD_COUNT
          stEmpty).snd domain ty protocol).st.fds =
       (createSeq MAX_FD_COUNT env domain ty protocol MAX_FD_COUNT
         stEmpty).snd.fds) ∧
    (∀ h : Nat, h < MAX_FD_COUNT →
      (qc_handle_socket MAX_FD_COUNT env
        (release (createSeq MAX_FD_COUNT env domain ty protocol MAX_FD_COUNT
          stEmpty).snd (h : Int)) domain ty protocol).ret = (h : Int)) := by
  have hempty : ({ fds := stepFds env.socketRes 0, qemu_errno := 0 } : QState) =
      stEmpty := by
    rw [stepFds_zero]
    rfl
  have hseq := createSeq_fills MAX_FD_COUNT env domain ty protocol hs hg hf
    MAX_FD_COUNT 0 0 (by omega)
  rw [hempty] at hseq
  simp only [Nat.zero_add] at hseq
  have hfullfds : ∀ i : Nat, i < MAX_FD_COUNT →
      stepFds env.socketRes MAX_FD_COUNT i ≠ -1 := by
    intro i hilt
    unfold stepFds
    rw [if_pos (by omega)]
    omega
  refine ⟨?_, ?_, ?_, ?_, ?_⟩
  · intro st i hi hfree hmin
    rw [find_free_socket_least MAX_FD_COUNT st i hi hfree hmin]
    exact ⟨rfl, rfl⟩
  · intro st hfull
    rw [find_free_socket_full MAX_FD_COUNT st hfull]
    exact ⟨rfl, rfl⟩
  · intro st i hi hfree hmin
    have hstep := socket_success_step MAX_FD_COUNT env st domain ty protocol i
      hi hfree hmin hs hg hf
    refine ⟨hstep.1, ?_, ?_⟩
    · rw [hstep.2]
      exact Function.update_same _ _ _
    · intro j hj
      rw [hstep.2]
      exact Function.update_noteq hj _ _
  · rw [hseq]
    have hb := socket_full_behavior MAX_FD_COUNT env
      { fds := stepFds env.socketRes MAX_FD_COUNT, qemu_errno := 0 }
      domain ty protocol hfullfds
    rw [hb]
    refine ⟨by rw [List.range_eq_range'], by norm_num, rfl⟩
  · intro h hlt
    rw [hseq]
    have hfree : (release { fds := stepFds env.socketRes MAX_FD_COUNT, qemu_errno := 0 } (h : Int)).fds h = -1 := by
      show Function.update _ _ _ _ = _
      rw [Function.update_same]
    have hmin : ∀ j : Nat, j < h →
        (release { fds := stepFds env.socketRes MAX_FD_COUNT, qemu_errno := 0 } (h : Int)).fds j ≠ -1 := by
      intro j hj
      show Function.update _ _ _ _ ≠ _
      rw [Function.update_noteq (by omega)]
      exact hfullfds j (by omega)
    exact (socket_success_step MAX_FD_COUNT env _ domain ty protocol h hlt
      hfree hmin hs hg hf).1

/-- Witness for C9 at a concrete input: capacity 3 with a host that
always succeeds — three creates from the empty table return handles
`[0, 1, 2]`, a fourth create fails, and after releasing handle 1 the
next create returns 1. -/
theorem allocator_lowest_first_and_reuse_witness :
    (0 : Int) ≤ envOK.socketRes ∧ (0 : Int) ≤ envOK.getflRes ∧
    (0 : Int) ≤ envOK.setflRes ∧
    (createSeq 3 envOK 2 1 0 3 stEmpty).1 = [0, 1, 2] ∧
    (qc_handle_socket 3 envOK (createSeq 3 envOK 2 1 0 3 stEmpty).snd 2 1
      0).ret < 0 ∧
    (qc_handle_socket 3 envOK
      (release (createSeq 3 envOK 2 1 0 3 stEmpty).snd 1) 2 1 0).ret = 1 := by
  have h := allocator_lowest_first_and_reuse 3 envOK 2 1 0 (by decide)
    (by decide) (by decide)
  refine ⟨by decide, by decide, by decide, ?_, h.2.2.2.1.2.1, ?_⟩
  · exact (h.2.2.2.1.1).trans (by decide)
  · simpa using h.2.2.2.2 1 (by omega)

/-- Claim C6: a non-negative guest handle is returned by
`qc_handle_socket` or `qc_handle_accept` only when both `fcntl` calls
of the non-blocking setup succeeded, and the trace then contains the
`F_SETFL` call on exactly the host descriptor stored in the returned
slot; when the setup failed the handler returns a negative result
instead. -/
theorem returned_handles_nonblocking (MAX_FD_COUNT : Nat) (env : HostEnv)
    (st : QState) (domain ty protocol sckt : Int) (g_addr g_addrlen : Nat) :
    (0 ≤ (qc_handle_socket MAX_FD_COUNT env st domain ty protocol).ret →
      0 ≤ env.getflRes ∧ 0 ≤ env.setflRes ∧
      Event.hostFcntlSet
          ((qc_handle_socket MAX_FD_COUNT env st domain ty protocol).st.fds
            (qc_handle_socket MAX_FD_COUNT env st domain ty protocol).ret) ∈
        (qc_handle_socket MAX_FD_COUNT env st domain ty protocol).events) ∧
    (0 ≤ (qc_handle_accept MAX_FD_COUNT env st sckt g_addr g_addrlen).ret →
      0 ≤ env.getflRes ∧ 0 ≤ env.setflRes ∧
      Event.hostFcntlSet
          ((qc_handle_accept MAX_FD_COUNT env st sckt g_addr g_addrlen).st.fds
            (qc_handle_accept MAX_FD_COUNT env st sckt g_addr g_addrlen).ret) ∈
        (qc_handle_accept MAX_FD_COUNT env st sckt g_addr g_addrlen).events) := by
  constructor
  · intro h
    by_cases h1 : (find_free_socket MAX_FD_COUNT st).1 < 0
    · simp [qc_handle_socket, h1] at h
      omega
    · by_cases h2 : env.socketRes < 0
      · simp [qc_handle_socket, h1, h2] at h
      · by_cases h3 : env.getflRes < 0
        · simp [qc_handle_socket, set_socket_non_blocking, h1, h2, h3] at h
        · by_cases h4 : env.setflRes < 0
          · simp [qc_handle_socket, set_socket_non_blocking, h1, h2, h3, h4] at h
          · refine ⟨by omega, by omega, ?_⟩
            simp [qc_handle_socket, set_socket_non_blocking, h1, h2, h3, h4]
  · intro h
    by_cases hv : verify_fd_ok MAX_FD_COUNT st sckt = true
    · by_cases h1 : (find_free_socket MAX_FD_COUNT st).1 < 0
      · simp [qc_handle_accept, hv, h1] at h
        omega
      · by_cases h2 : env.acceptRes < 0
        · simp [qc_handle_accept, hv, h1, h2] at h
        · by_cases h3 : env.getflRes < 0
          · simp [qc_handle_accept, set_socket_non_blocking, hv, h1, h2, h3] at h
          · by_cases h4 : env.setflRes < 0
            · simp [qc_handle_accept, set_socket_non_blocking, hv, h1, h2, h3,
                h4] at h
            · refine ⟨by omega, by omega, ?_⟩
              simp [qc_handle_accept, set_socket_non_blocking, hv, h1, h2, h3, h4]
    · simp [qc_handle_accept, verify_fd_fail, hv] at h

/-- Witness for C6 at a concrete input: a successful create on an
empty table returns handle 0 whose slot holds host descriptor 5, and
the trace records the successful `F_SETFL` on descriptor 5. -/
theorem returned_handles_nonblocking_witness :
    0 ≤ (qc_handle_socket 4 envOK stEmpty 2 1 0).ret ∧
    (0 ≤ envOK.getflRes ∧ 0 ≤ envOK.setflRes ∧
      Event.hostFcntlSet
          ((qc_handle_socket 4 envOK stEmpty 2 1 0).st.fds
            (qc_handle_socket 4 envOK stEmpty 2 1 0).ret) ∈
        (qc_handle_socket 4 envOK stEmpty 2 1 0).events) := by
  exact ⟨by decide,
    (returned_handles_nonblocking 4 envOK stEmpty 2 1 0 0 0 0).1 (by decide)⟩

/-- Claim C1 (code bug witnessed at a concrete input): when the host
`socket()`/`accept()` call succeeds but the non-blocking setup fails,
the handlers do NOT reset the claimed slot to FREE.  `retval` has
already been overwritten with the helper's failing result `-1`, so the
cleanup statements act on `fds[-1]` and the claimed slot (index 0 for
create, index 1 for accept here) still holds the fresh host descriptor
when the handler returns its negative result. -/
theorem create_accept_setup_failure_leaks_slot :
    ((qc_handle_socket 4 envGetflFail stEmpty 2 1 0).ret < 0 ∧
     (qc_handle_socket 4 envGetflFail stEmpty 2 1 0).st.fds 0 = 5 ∧
     (qc_handle_socket 4 envGetflFail stEmpty 2 1 0).st.fds 0 ≠ -1) ∧
    ((qc_handle_accept 4 envGetflFail stOne 0 100 200).ret < 0 ∧
     (qc_handle_accept 4 envGetflFail stOne 0 100 200).st.fds 1 = 6 ∧
     (qc_handle_accept 4 envGetflFail stOne 0 100 200).st.fds 1 ≠ -1) := by
  decide

/-- Claim C2 (code bug witnessed at a concrete input): `qc_handle_bind`
and `qc_handle_connect` with `addrlen = 17 > sizeof(struct sockaddr_in)
= 16` do set `qemu_errno = ENOMEM`, perform no guest copy and no host
call — but they return `0`, the success value, not a negative result,
because `retval` is never set to `-1` on the oversize path. -/
theorem bind_connect_oversize_returns_zero :
    ((qc_handle_bind 4 envOK stOne 0 100 17).ret = 0 ∧
     ¬((qc_handle_bind 4 envOK stOne 0 100 17).ret < 0) ∧
     (qc_handle_bind 4 envOK stOne 0 100 17).st.qemu_errno = ENOMEM ∧
     (qc_handle_bind 4 envOK stOne 0 100 17).events = []) ∧
    ((qc_handle_connect 4 envOK stOne 0 100 17).ret = 0 ∧
     ¬((qc_handle_connect 4 envOK stOne 0 100 17).ret < 0) ∧
     (qc_handle_connect 4 envOK stOne 0 100 17).st.qemu_errno = ENOMEM ∧
     (qc_handle_connect 4 envOK stOne 0 100 17).events = []) := by
  decide

/-- Claim C3 counterexample: with a full table (capacity 1, slot
occupied), `qc_handle_socket` returns a negative result but the error
cell observed by the guest holds `ENOTSOCK` — the invalid-socket code —
not an `ENOMEM`-class exhaustion code: the handler overwrites the
allocator's `ENOMEM` with `ENOTSOCK`. -/
theorem socket_exhaustion_reports_enotsock :
    (qc_handle_socket 1 envOK stFull 2 1 0).ret < 0 ∧
    (qc_handle_socket 1 envOK stFull 2 1 0).st.qemu_errno = ENOTSOCK ∧
    (qc_handle_socket 1 envOK stFull 2 1 0).st.qemu_errno ≠ ENOMEM := by
  decide

/-- Claim C4 counterexample: when the host `recv` returns 0 (connection
closed), `qc_handle_recv` takes the failure branch — it writes the host
errno (111 here) and copies nothing — but it returns 0, not a negative
result, because `retval` holds the host call's own return value. -/
theorem recv_host_zero_returns_zero :
    (qc_handle_recv 4 16 envRecvZero stOne 0 100 8 0).ret = 0 ∧
    ¬((qc_handle_recv 4 16 envRecvZero stOne 0 100 8 0).ret < 0) ∧
    (qc_handle_recv 4 16 envRecvZero stOne 0 100 8 0).st.qemu_errno = 111 ∧
    ((qc_handle_recv 4 16 envRecvZero stOne 0 100 8 0).events.filter
      (fun e => e.isCopyToGuest)) = [] := by
  decide

/-- Claim C10 (code bug witnessed at a concrete input): on the
non-blocking-setup failure path both `qc_handle_socket` and
`qc_handle_accept` access the `fds` array at index `-1` — outside
`[0, MAX_FD_COUNT)` — because the cleanup statements use `retval`
after it was overwritten with `-1`; in particular the trace contains
the out-of-bounds write `fds[-1] = -1`. -/
theorem cleanup_accesses_negative_fds_index :
    ((qc_handle_socket 4 envGetflFail stEmpty 2 1 0).events.any
      (Event.oobAccess 4)) = true ∧
    Event.fdsWrite (-1) (-1) ∈ (qc_handle_socket 4 envGetflFail stEmpty 2 1 0).events ∧
    ((qc_handle_accept 4 envGetflFail stOne 0 100 200).events.any
      (Event.oobAccess 4)) = true ∧
    Event.fdsWrite (-1) (-1) ∈ (qc_handle_accept 4 envGetflFail stOne 0 100 200).events := by
  decide

end GuestSocket
